import Mathlib

/-!
# Grantlee core library: `Template` and `TemplateLoader`

A shallow embedding of `src/grantlee_core_library/template.cpp`.

* `QString` values whose null-ness is never observed (paths, template
  sources) are Lean `String`s; `isEmpty` is the only test the code runs
  on them.  The result of a render pass, on which the code calls
  `isNull`, is an `Option String`, `none` being the null `QString`.
* The `error(int, QString)` signal is the list of events an operation
  emits, returned next to its result.
* `Lexer`, `Parser`, `Node`, `NodeList::render`, `Context` and the
  constant `TagSyntaxError` are declared in headers that are not part of
  the sources at hand; they are the fields of `Engine`.
* The file system is a function from paths to `FileEntry`.
-/

set_option linter.dupNamespace false

namespace Grantlee

/-- One emission of the signal `error(int, QString)`. -/
abbrev ErrorEvent := Int × String

/-- The collaborators of `template.cpp` that live in other translation
units (`lexer.h`, `parser.h`, `node.h`, `grantlee.h`). -/
structure Engine where
  /-- Tokens produced by the lexer. -/
  Token : Type
  /-- Nodes; a `NodeList` is a `QList<Node*>`, here `List Node`. -/
  Node : Type
  /-- Rendering context, passed by pointer to `NodeList::render`. -/
  Context : Type
  /-- The tokens of `Lexer l(str); l.tokenize()`. -/
  tokenize : String → List Token
  /-- The node list of `Parser p(tokens, pluginDirs); p.parse()` and the
  error signals the parser emits meanwhile. -/
  parse : List Token → List String → List Node × List ErrorEvent
  /-- The string `NodeList::render(c)` returns (`none` is a null
  `QString`) and the context it leaves behind. -/
  nodeListRender : List Node → Context → Option String × Context
  /-- The enumerator `TagSyntaxError` of `grantlee.h`. -/
  TagSyntaxError : Int

/-- The test `QString::isEmpty`. -/
def isEmpty (s : String) : Bool := s.data.isEmpty

/-- The test `QString::isEmpty` on a string that may be null. -/
def isEmptyOrNull : Option String → Bool
  | none => true
  | some s => isEmpty s

/-! ## Template -/

/-- The members of `class Template`. -/
structure Template (E : Engine) where
  m_nodelist : List E.Node
  m_pluginDirs : List String

namespace Template

variable {E : Engine}

/-- `Template::compileString`: lex, parse with the template's plugin
directories, forward the parser's error signals. -/
def compileString (t : Template E) (str : String) : List E.Node × List ErrorEvent :=
  E.parse (E.tokenize str) t.m_pluginDirs

/-- `Template::Template(pluginDirs, parent)`: the node list is default
constructed. -/
def Template (pluginDirs : List String) : Grantlee.Template E :=
  { m_nodelist := [], m_pluginDirs := pluginDirs }

/-- `Template::setContent`: returns the template afterwards and the
error signals emitted. -/
def setContent (t : Grantlee.Template E) (templateString : String) :
    Grantlee.Template E × List ErrorEvent :=
  if !isEmpty templateString then
    let r := t.compileString templateString
    ({ t with m_nodelist := r.1 }, r.2)
  else
    (t, [])

/-- `Template::render`: the returned string, the error signals emitted
by the template, and the context afterwards. -/
def render (t : Grantlee.Template E) (c : E.Context) :
    Option String × List ErrorEvent × E.Context :=
  let ret := E.nodeListRender t.m_nodelist c
  if ret.1.isNone then
    (none, [(E.TagSyntaxError, "someError")], ret.2)
  else
    (ret.1, [], ret.2)

/-- `Template::nodeList`. -/
def nodeList (t : Grantlee.Template E) : List E.Node := t.m_nodelist

/-- `Template::setNodeList`. -/
def setNodeList (t : Grantlee.Template E) (list : List E.Node) : Grantlee.Template E :=
  { t with m_nodelist := list }

end Template

/-! ## Files and text streams -/

/-- What the file system holds at a path: nothing, something that exists
but cannot be opened for reading (no permission, a directory), or a file
that opens, with the characters the device delivers in `Text` mode (end
of line terminators arrive as `'\n'`). -/
inductive FileEntry where
  | absent
  | unreadable
  | readable (text : String)

/-- The file system seen during one call. -/
abbrev FileSystem := String → FileEntry

/-- Whether something exists at `path`. -/
def pathExists (fs : FileSystem) (path : String) : Bool :=
  match fs path with
  | .absent => false
  | .unreadable => true
  | .readable _ => true

/-- A `QFile`: its file name; a default constructed `QFile` has the empty
name. -/
structure QFile where
  fileName : String

namespace QFile

/-- `QFile::exists()`: a `QFile` without a file name does not exist. -/
def fileExists (fs : FileSystem) (file : QFile) : Bool :=
  !isEmpty file.fileName && pathExists fs file.fileName

/-- `QFile::open(QIODevice::ReadOnly | QIODevice::Text)`. -/
def openReadOnly (fs : FileSystem) (file : QFile) : Bool :=
  match fs file.fileName with
  | .readable _ => true
  | _ => false

/-- The characters an opened file delivers. -/
def device (fs : FileSystem) (file : QFile) : List Char :=
  match fs file.fileName with
  | .readable text => text.data
  | _ => []

end QFile

/-- A `QTextStream` reading from a device: the characters not yet read. -/
structure QTextStream where
  buf : List Char

namespace QTextStream

/-- `QTextStream::atEnd`. -/
def atEnd (s : QTextStream) : Bool := s.buf.isEmpty

/-- `QTextStream::readLine`: the characters up to the next `'\n'`, which
is consumed and not returned. -/
def readLine (s : QTextStream) : String × QTextStream :=
  (String.mk (s.buf.takeWhile (fun ch => ch != '\n')),
   { buf := (s.buf.dropWhile (fun ch => ch != '\n')).drop 1 })

end QTextStream

/-- The loop `while (!in.atEnd()) content += in.readLine();`. -/
def readLoop (ins : QTextStream) (content : String) : String :=
  if h : ins.atEnd = false then
    readLoop ins.readLine.2 (content ++ ins.readLine.1)
  else
    content
termination_by ins.buf.length
decreasing_by
  obtain ⟨buf⟩ := ins
  cases buf with
  | nil => simp [QTextStream.atEnd] at h
  | cons a l =>
    have h2 := (List.dropWhile_sublist (fun ch => ch != '\n') (l := l)).length_le
    by_cases ha : (a != '\n') = true
    · simp only [QTextStream.readLine, List.length_drop, List.length_cons, List.dropWhile_cons,
        ha, if_true]
      omega
    · simp [QTextStream.readLine, List.dropWhile_cons, ha]

/-! ## TemplateLoader -/

/-- The members of `class TemplateLoader`; `m_namedTemplates` maps a
name to the content injected for it. -/
structure TemplateLoader where
  m_templateDirs : List String
  m_pluginDirs : List String
  m_themeName : String
  m_namedTemplates : String → Option String

namespace TemplateLoader

variable {E : Engine}

/-- `TemplateLoader::TemplateLoader()`. -/
def TemplateLoader : Grantlee.TemplateLoader :=
  { m_templateDirs := [], m_pluginDirs := [], m_themeName := "",
    m_namedTemplates := fun _ => none }

/-- `TemplateLoader::setTemplateDirs`. -/
def setTemplateDirs (L : Grantlee.TemplateLoader) (dirs : List String) :
    Grantlee.TemplateLoader :=
  { L with m_templateDirs := dirs }

/-- `TemplateLoader::setPluginDirs`. -/
def setPluginDirs (L : Grantlee.TemplateLoader) (dirs : List String) :
    Grantlee.TemplateLoader :=
  { L with m_pluginDirs := dirs }

/-- `TemplateLoader::setTheme`. -/
def setTheme (L : Grantlee.TemplateLoader) (themeName : String) :
    Grantlee.TemplateLoader :=
  { L with m_themeName := themeName }

/-- `TemplateLoader::getTemplate`: the object `new Template(m_pluginDirs,
parent)` creates. -/
def getTemplate (L : Grantlee.TemplateLoader) : Template E :=
  Template.Template L.m_pluginDirs

/-- The path `m_templateDirs.at(i) + "/" + m_themeName + "/" + fileName`
for the directory `dir`. -/
def candidate (L : Grantlee.TemplateLoader) (fileName dir : String) : String :=
  dir ++ "/" ++ L.m_themeName ++ "/" ++ fileName

/-- The search loop of `loadFromFile`, entered with counter `i` and the
current `file`; returns the `QFile` the loop ends with. -/
def searchLoop (L : Grantlee.TemplateLoader) (fs : FileSystem) (fileName : String)
    (i : Nat) (file : QFile) : QFile :=
  if !file.fileExists fs then
    if h : i ≥ L.m_templateDirs.length then
      file
    else
      searchLoop L fs fileName (i + 1)
        { fileName := L.candidate fileName (L.m_templateDirs.get ⟨i, by omega⟩) }
  else
    file
termination_by L.m_templateDirs.length - i

/-- `TemplateLoader::loadFromFile`: the returned flag, the template
afterwards and the error signals it emitted. -/
def loadFromFile (L : Grantlee.TemplateLoader) (fs : FileSystem) (t : Template E)
    (fileName : String) : Bool × Template E × List ErrorEvent :=
  let file := L.searchLoop fs fileName 0 { fileName := "" }
  if !file.fileExists fs || !file.openReadOnly fs then
    (false, t, [])
  else
    let content := readLoop { buf := file.device fs } ""
    (true, t.setContent content)

/-- `TemplateLoader::injectTemplate`: `insert` replaces an earlier entry
for the same name. -/
def injectTemplate (L : Grantlee.TemplateLoader) (name content : String) :
    Grantlee.TemplateLoader :=
  { L with m_namedTemplates := fun k => if k = name then some content else L.m_namedTemplates k }

/-- `TemplateLoader::loadByName`. -/
def loadByName (L : Grantlee.TemplateLoader) (fs : FileSystem) (t : Template E)
    (name : String) : Bool × Template E × List ErrorEvent :=
  if (L.m_namedTemplates name).isSome then
    (true, t.setContent ((L.m_namedTemplates name).getD ""))
  else
    L.loadFromFile fs t name

end TemplateLoader

/-! ## Calls on the loader and the objects it creates -/

/-- A call of one of the configuring members of `TemplateLoader`. -/
inductive LoaderCall where
  | setTemplateDirs (dirs : List String)
  | setPluginDirs (dirs : List String)
  | setTheme (themeName : String)
  | injectTemplate (name content : String)

namespace TemplateLoader

/-- The loader after one configuring call. -/
def call (L : Grantlee.TemplateLoader) : LoaderCall → Grantlee.TemplateLoader
  | .setTemplateDirs dirs => L.setTemplateDirs dirs
  | .setPluginDirs dirs => L.setPluginDirs dirs
  | .setTheme themeName => L.setTheme themeName
  | .injectTemplate name content => L.injectTemplate name content

/-- The loader after a sequence of configuring calls, first call first. -/
def calls (L : Grantlee.TemplateLoader) (cs : List LoaderCall) : Grantlee.TemplateLoader :=
  cs.foldl call L

end TemplateLoader

/-- The loader and the `Template` objects allocated with `new` so far; a
`Template*` is an index into `objects`. -/
structure Heap (E : Engine) where
  loader : TemplateLoader
  objects : List (Template E)

namespace Heap

variable {E : Engine}

/-- `TemplateLoader::getTemplate` on the heap: allocates the new object
and returns its address. -/
def getTemplate (H : Heap E) : Nat × Heap E :=
  (H.objects.length, { H with objects := H.objects ++ [H.loader.getTemplate] })

/-- A configuring call on the loader of the heap. -/
def call (H : Heap E) (c : LoaderCall) : Heap E :=
  { H with loader := H.loader.call c }

/-- A sequence of configuring calls on the loader of the heap. -/
def calls (H : Heap E) (cs : List LoaderCall) : Heap E :=
  cs.foldl call H

end Heap

/-! ## Vocabulary of the statements -/

/-- Directory `d` stands at index `i` of the template directories, its
path for `fileName` exists, and the path of every directory before it
does not. -/
def FirstExisting (L : TemplateLoader) (fs : FileSystem) (fileName : String) (i : Nat)
    (d : String) : Prop :=
  L.m_templateDirs[i]? = some d ∧ pathExists fs (L.candidate fileName d) = true ∧
    ∀ j d', j < i → L.m_templateDirs[j]? = some d' →
      pathExists fs (L.candidate fileName d') = false

/-! ## Concrete inputs -/

/-- An engine in which every character is a token and a literal node; a
node list renders to its characters when the context is `true` and to a
null string when it is `false`. -/
def literalEngine : Engine :=
  { Token := Char, Node := Char, Context := Bool,
    tokenize := fun s => s.data,
    parse := fun toks _ => (toks, []),
    nodeListRender := fun ns c => (if c then some (String.mk ns) else none, c),
    TagSyntaxError := 1 }

/-- A loader with directories `d1`, `d2` and theme `t`. -/
def sampleLoader : TemplateLoader :=
  { m_templateDirs := ["d1", "d2"], m_pluginDirs := ["plugins"], m_themeName := "t",
    m_namedTemplates := fun _ => none }

/-- A template of `literalEngine` holding one node. -/
def sampleTemplate : Template literalEngine :=
  { m_nodelist := ['z'], m_pluginDirs := ["plugins"] }

/-- The file `x` exists only under `d2/t/`. -/
def onlyInSecond : FileSystem := fun p =>
  if p = "d2/t/x" then .readable "a\nb" else .absent

/-- The file `x` is unreadable under `d1/t/` and readable under `d2/t/`. -/
def unreadableFirst : FileSystem := fun p =>
  if p = "d1/t/x" then .unreadable else if p = "d2/t/x" then .readable "A" else .absent

/-- The file `x` exists under `d1/t/` with content `B`. -/
def fileInFirst : FileSystem := fun p =>
  if p = "d1/t/x" then .readable "B" else .absent

end Grantlee

/-! ## Auxiliary lemmas -/

namespace Grantlee

theorem isEmpty_eq_true_iff (s : String) : isEmpty s = true ↔ s = "" := by
  constructor
  · intro h
    apply String.ext
    simpa [isEmpty] using h
  · rintro rfl
    rfl

theorem takeWhile_append_filter_drop (p : Char → Bool) (l : List Char) :
    l.takeWhile p ++ ((l.dropWhile p).drop 1).filter p = l.filter p := by
  induction l with
  | nil => rfl
  | cons a l ih =>
    by_cases ha : p a = true
    · simp only [List.takeWhile_cons, List.dropWhile_cons, List.filter_cons, ha, if_true,
        List.cons_append, ih]
    · simp [List.takeWhile_cons, List.dropWhile_cons, List.filter_cons, ha]

theorem filter_terminated_lines (lines : List (List Char))
    (h : ∀ l ∈ lines, '\n' ∉ l) :
    ((lines.map (fun l => l ++ ['\n'])).flatten).filter (fun ch => ch != '\n') = lines.flatten := by
  induction lines with
  | nil => rfl
  | cons l ls ih =>
    have hl : l.filter (fun ch => ch != '\n') = l := by
      rw [List.filter_eq_self]
      intro a ha
      have : a ≠ '\n' := fun heq => h l (List.mem_cons_self l ls) (heq ▸ ha)
      simpa using this
    simp only [List.map_cons, List.flatten_cons, List.filter_append, hl, List.append_assoc]
    rw [ih (fun l' hl' => h l' (List.mem_cons_of_mem l hl'))]
    simp

theorem readLoop_eq (buf : List Char) (content : String) :
    readLoop { buf := buf } content
      = content ++ String.mk (buf.filter (fun ch => ch != '\n')) := by
  generalize hn : buf.length = n
  induction n using Nat.strong_induction_on generalizing buf content with
  | _ n ih =>
    rw [readLoop]
    cases buf with
    | nil =>
      simp only [QTextStream.atEnd, List.isEmpty_nil, Bool.true_eq_false, dite_false,
        List.filter_nil]
      apply String.ext
      simp
    | cons a l =>
      have hlt : (QTextStream.readLine { buf := a :: l }).2.buf.length < n := by
        have h2 := (List.dropWhile_sublist (fun ch => ch != '\n') (l := l)).length_le
        subst hn
        by_cases ha : (a != '\n') = true
        · simp only [QTextStream.readLine, List.length_drop, List.length_cons,
            List.dropWhile_cons, ha, if_true]
          omega
        · simp [QTextStream.readLine, List.dropWhile_cons, ha]
      simp only [QTextStream.atEnd, List.isEmpty_cons, dite_true]
      rw [ih _ hlt _ _ rfl]
      apply String.ext
      simp only [QTextStream.readLine, String.data_append]
      rw [List.append_assoc, takeWhile_append_filter_drop]

namespace TemplateLoader

theorem isEmpty_candidate (L : Grantlee.TemplateLoader) (fileName dir : String) :
    isEmpty (L.candidate fileName dir) = false := by
  simp [candidate, isEmpty, String.data_append]

theorem fileExists_candidate (L : Grantlee.TemplateLoader) (fs : FileSystem)
    (fileName dir : String) :
    QFile.fileExists fs { fileName := L.candidate fileName dir }
      = pathExists fs (L.candidate fileName dir) := by
  simp [QFile.fileExists, isEmpty_candidate]

theorem fileExists_noName (fs : FileSystem) :
    QFile.fileExists fs { fileName := "" } = false := by
  simp [QFile.fileExists, isEmpty]

theorem searchLoop_found (L : Grantlee.TemplateLoader) (fs : FileSystem) (fileName d : String)
    (hex : pathExists fs (L.candidate fileName d) = true) :
    ∀ (n i : Nat) (file : QFile), file.fileExists fs = false →
      L.m_templateDirs[i + n]? = some d →
      (∀ j d', i ≤ j → j < i + n → L.m_templateDirs[j]? = some d' →
        pathExists fs (L.candidate fileName d') = false) →
      L.searchLoop fs fileName i file = { fileName := L.candidate fileName d } := by
  intro n
  induction n with
  | zero =>
    intro i file hfile hd _
    have hi : i < L.m_templateDirs.length := by
      rcases List.getElem?_eq_some_iff.mp hd with ⟨h, _⟩
      simpa using h
    have hget : L.m_templateDirs.get ⟨i, hi⟩ = d := by
      rcases List.getElem?_eq_some_iff.mp hd with ⟨_, h⟩
      simpa using h
    rw [searchLoop]
    simp only [hfile, Bool.not_false, if_true, ge_iff_le, Nat.not_le.mpr hi, dite_false, hget]
    rw [searchLoop]
    simp [fileExists_candidate, hex]
  | succ n ih =>
    intro i file hfile hd hfirst
    have hi : i < L.m_templateDirs.length := by
      rcases List.getElem?_eq_some_iff.mp hd with ⟨h, _⟩
      omega
    rw [searchLoop]
    simp only [hfile, Bool.not_false, if_true, ge_iff_le, Nat.not_le.mpr hi, dite_false]
    apply ih
    · rw [fileExists_candidate]
      exact hfirst i _ (Nat.le_refl i) (by omega) (List.getElem?_eq_getElem hi)
    · rw [← hd]
      congr 1
      omega
    · intro j d' h1 h2 h3
      exact hfirst j d' (by omega) (by omega) h3

end TemplateLoader

end Grantlee

/-! ## Auxiliary lemmas on `loadFromFile` and `loadByName` -/

namespace Grantlee

namespace TemplateLoader

variable {E : Engine}

theorem searchLoop_exists (L : Grantlee.TemplateLoader) (fs : FileSystem) (fileName : String) :
    ∀ (k i : Nat) (file : QFile), L.m_templateDirs.length - i = k →
      file.fileExists fs = false →
      (L.searchLoop fs fileName i file).fileExists fs = true →
      ∃ m d, L.m_templateDirs[m]? = some d ∧
        L.searchLoop fs fileName i file = { fileName := L.candidate fileName d } ∧
        pathExists fs (L.candidate fileName d) = true ∧
        ∀ j d', i ≤ j → j < m → L.m_templateDirs[j]? = some d' →
          pathExists fs (L.candidate fileName d') = false := by
  intro k
  induction k with
  | zero =>
    intro i file hk hfile hres
    rw [searchLoop] at hres
    have : L.m_templateDirs.length ≤ i := by omega
    simp [hfile, this] at hres
  | succ k ih =>
    intro i file hk hfile hres
    have hi : i < L.m_templateDirs.length := by omega
    rw [searchLoop] at hres ⊢
    simp only [hfile, Bool.not_false, if_true, ge_iff_le, Nat.not_le.mpr hi, dite_false]
      at hres ⊢
    by_cases hc : pathExists fs (L.candidate fileName (L.m_templateDirs.get ⟨i, hi⟩)) = true
    · refine ⟨i, L.m_templateDirs.get ⟨i, hi⟩, List.getElem?_eq_getElem hi, ?_, hc, ?_⟩
      · rw [searchLoop]
        simp only [fileExists_candidate, hc, Bool.not_true, Bool.false_eq_true, if_false]
      · intro j d' h1 h2
        omega
    · have hc' : pathExists fs (L.candidate fileName (L.m_templateDirs.get ⟨i, hi⟩)) = false := by
        simpa using hc
      obtain ⟨m, d, hm, hs, hex, hbefore⟩ :=
        ih (i + 1) _ (by omega) (by rw [fileExists_candidate]; exact hc') hres
      refine ⟨m, d, hm, hs, hex, ?_⟩
      intro j d' h1 h2 h3
      by_cases hji : j = i
      · subst hji
        have : d' = L.m_templateDirs.get ⟨j, hi⟩ := by
          rw [List.getElem?_eq_getElem hi] at h3
          exact (Option.some.inj h3).symm
        rw [this]
        exact hc'
      · exact hbefore j d' (by omega) h2 h3

theorem searchLoop_first (L : Grantlee.TemplateLoader) (fs : FileSystem) (fileName : String)
    (i : Nat) (d : String) (h : FirstExisting L fs fileName i d) :
    L.searchLoop fs fileName 0 { fileName := "" } = { fileName := L.candidate fileName d } := by
  obtain ⟨hd, hex, hbefore⟩ := h
  apply searchLoop_found L fs fileName d hex i 0 _ (fileExists_noName fs)
  · simpa using hd
  · intro j d' _ h2 h3
    exact hbefore j d' (by omega) h3

theorem loadFromFile_first_readable (L : Grantlee.TemplateLoader) (fs : FileSystem)
    (t : Template E) (fileName : String) (i : Nat) (d text : String)
    (h : FirstExisting L fs fileName i d)
    (hr : fs (L.candidate fileName d) = .readable text) :
    L.loadFromFile fs t fileName = (true, t.setContent (readLoop { buf := text.data } "")) := by
  unfold loadFromFile
  simp only [searchLoop_first L fs fileName i d h, fileExists_candidate, h.2.1,
    QFile.openReadOnly, QFile.device, hr]
  simp

theorem loadFromFile_first_unreadable (L : Grantlee.TemplateLoader) (fs : FileSystem)
    (t : Template E) (fileName : String) (i : Nat) (d : String)
    (h : FirstExisting L fs fileName i d)
    (hr : fs (L.candidate fileName d) = .unreadable) :
    L.loadFromFile fs t fileName = (false, t, []) := by
  unfold loadFromFile
  simp only [searchLoop_first L fs fileName i d h, fileExists_candidate, h.2.1,
    QFile.openReadOnly, hr]
  simp

theorem loadFromFile_true (L : Grantlee.TemplateLoader) (fs : FileSystem)
    (t : Template E) (fileName : String) (h : (L.loadFromFile fs t fileName).1 = true) :
    ∃ i d text, FirstExisting L fs fileName i d ∧
      fs (L.candidate fileName d) = .readable text := by
  unfold loadFromFile at h
  by_cases hex : (L.searchLoop fs fileName 0 { fileName := "" }).fileExists fs = true
  · obtain ⟨m, d, hm, hs, hp, hbefore⟩ :=
      searchLoop_exists L fs fileName _ 0 _ rfl (fileExists_noName fs) hex
    refine ⟨m, d, ?_⟩
    have hfirst : FirstExisting L fs fileName m d :=
      ⟨hm, hp, fun j d' h2 h3 => hbefore j d' (Nat.zero_le j) h2 h3⟩
    cases hfs : fs (L.candidate fileName d) with
    | absent => simp [pathExists, hfs] at hp
    | unreadable => simp [hs, fileExists_candidate, hp, QFile.openReadOnly, hfs] at h
    | readable text => exact ⟨text, hfirst, rfl⟩
  · simp [hex] at h

theorem loadFromFile_false (L : Grantlee.TemplateLoader) (fs : FileSystem)
    (t : Template E) (fileName : String) (h : (L.loadFromFile fs t fileName).1 = false) :
    L.loadFromFile fs t fileName = (false, t, []) := by
  unfold loadFromFile at h ⊢
  by_cases hc : (!(L.searchLoop fs fileName 0 { fileName := "" }).fileExists fs ||
      !(L.searchLoop fs fileName 0 { fileName := "" }).openReadOnly fs) = true
  · simp only [hc, if_true]
  · simp only [hc] at h
    simp at h

end TemplateLoader

end Grantlee

/-! ## The claims -/

namespace Grantlee

/-- C1: once `name` has been injected with `content`, and whatever
configuring calls follow that do not inject `name` again, `loadByName`
returns true with the template set from `content`; the result does not
depend on the file system.  Injecting `"x"` with `"A"` and loading `"x"`
leaves the compilation of `"A"` in the template, whatever the files. -/
theorem C1_injected_template_wins (E : Engine) (L : TemplateLoader) (fs : FileSystem)
    (t : Template E) (name content : String) (cs : List LoaderCall)
    (hcs : ∀ c ∈ cs, ∀ content', c ≠ LoaderCall.injectTemplate name content') :
    ((L.injectTemplate name content).calls cs).loadByName fs t name
        = (true, t.setContent content) ∧
      (∀ fs', ((L.injectTemplate name content).calls cs).loadByName fs' t name
        = ((L.injectTemplate name content).calls cs).loadByName fs t name) ∧
      ((L.injectTemplate "x" "A").loadByName fs t "x").1 = true ∧
      ((L.injectTemplate "x" "A").loadByName fs t "x").2.1.m_nodelist
        = (t.compileString "A").1 := by
  have key : ∀ (cs : List LoaderCall) (L' : TemplateLoader),
      (∀ c ∈ cs, ∀ content', c ≠ LoaderCall.injectTemplate name content') →
      L'.m_namedTemplates name = some content →
      (L'.calls cs).m_namedTemplates name = some content := by
    intro cs
    induction cs with
    | nil => intro L' _ h; exact h
    | cons c cs ih =>
      intro L' hcs h
      have hrest : ∀ c' ∈ cs, ∀ content', c' ≠ LoaderCall.injectTemplate name content' :=
        fun c' hc' => hcs c' (List.mem_cons_of_mem c hc')
      have hc := hcs c (List.mem_cons_self c cs)
      show ((L'.call c).calls cs).m_namedTemplates name = some content
      apply ih _ hrest
      cases c with
      | setTemplateDirs dirs => exact h
      | setPluginDirs dirs => exact h
      | setTheme themeName => exact h
      | injectTemplate name' content' =>
        have hne : name ≠ name' := by
          intro heq
          exact hc content' (by rw [heq])
        simp [TemplateLoader.call, TemplateLoader.injectTemplate, hne, h]
  have hinj : (L.injectTemplate name content).m_namedTemplates name = some content := by
    simp [TemplateLoader.injectTemplate]
  have hall : ∀ fs', ((L.injectTemplate name content).calls cs).loadByName fs' t name
      = (true, t.setContent content) := by
    intro fs'
    simp [TemplateLoader.loadByName, key cs _ hcs hinj]
  refine ⟨hall fs, fun fs' => (hall fs').trans (hall fs).symm, ?_, ?_⟩
  · simp [TemplateLoader.loadByName, TemplateLoader.injectTemplate]
  · simp [TemplateLoader.loadByName, TemplateLoader.injectTemplate, Template.setContent, isEmpty]

/-- Witness of C1: the file `d1/t/x` holds `B`, `x` is injected with `A`,
the theme is set afterwards. -/
theorem C1_injected_template_wins_witness :
    ((sampleLoader.injectTemplate "x" "A").calls [LoaderCall.setTheme "t"]).loadByName
        fileInFirst sampleTemplate "x" = (true, sampleTemplate.setContent "A") ∧
      (∀ fs', ((sampleLoader.injectTemplate "x" "A").calls [LoaderCall.setTheme "t"]).loadByName
          fs' sampleTemplate "x"
        = ((sampleLoader.injectTemplate "x" "A").calls [LoaderCall.setTheme "t"]).loadByName
          fileInFirst sampleTemplate "x") ∧
      ((sampleLoader.injectTemplate "x" "A").loadByName fileInFirst sampleTemplate "x").1 = true ∧
      ((sampleLoader.injectTemplate "x" "A").loadByName fileInFirst sampleTemplate "x").2.1.m_nodelist
        = (sampleTemplate.compileString "A").1 :=
  C1_injected_template_wins literalEngine sampleLoader fileInFirst sampleTemplate "x" "A"
    [LoaderCall.setTheme "t"] (by simp)

/-- C2: when directory `d` at index `i` is the first whose path
`dir/theme/fileName` exists, the search loop of `loadFromFile` ends on
that path, every earlier path not existing; and when the file there
opens, `loadFromFile` returns true and what it applies to the template
is the text at that path without its `'\n'`: when that source is not
empty the node list afterwards is the parse of its tokens with the plugin
directories of the template, which stay, and exactly the signals of that
parse are emitted; when it is empty the template is as before.  With
directories `[d1, d2]`, theme `"t"` and the file only under `d2/t/`, it
returns true and loads the text at `d2/t/fileName`. -/
theorem C2_first_existing_directory_selected (E : Engine) (L : TemplateLoader)
    (fs : FileSystem) (t : Template E) (fileName : String) :
    (∀ i d, FirstExisting L fs fileName i d →
      L.searchLoop fs fileName 0 { fileName := "" }
          = { fileName := d ++ "/" ++ L.m_themeName ++ "/" ++ fileName } ∧
        ∀ text, fs (d ++ "/" ++ L.m_themeName ++ "/" ++ fileName) = .readable text →
          (L.loadFromFile fs t fileName).1 = true ∧
          (String.mk (text.data.filter (fun ch => ch != '\n')) ≠ "" →
            (L.loadFromFile fs t fileName).2.1.m_nodelist
              = (E.parse (E.tokenize (String.mk (text.data.filter (fun ch => ch != '\n'))))
                  t.m_pluginDirs).1 ∧
            (L.loadFromFile fs t fileName).2.1.m_pluginDirs = t.m_pluginDirs ∧
            (L.loadFromFile fs t fileName).2.2
              = (E.parse (E.tokenize (String.mk (text.data.filter (fun ch => ch != '\n'))))
                  t.m_pluginDirs).2) ∧
          (String.mk (text.data.filter (fun ch => ch != '\n')) = "" →
            (L.loadFromFile fs t fileName).2 = (t, []))) ∧
      (∀ d1 d2 text, L.m_templateDirs = [d1, d2] → L.m_themeName = "t" →
        fs (d1 ++ "/" ++ "t" ++ "/" ++ fileName) = .absent →
        fs (d2 ++ "/" ++ "t" ++ "/" ++ fileName) = .readable text →
        L.searchLoop fs fileName 0 { fileName := "" }
          = { fileName := d2 ++ "/" ++ "t" ++ "/" ++ fileName } ∧
        (L.loadFromFile fs t fileName).1 = true ∧
        (String.mk (text.data.filter (fun ch => ch != '\n')) ≠ "" →
          (L.loadFromFile fs t fileName).2.1.m_nodelist
            = (E.parse (E.tokenize (String.mk (text.data.filter (fun ch => ch != '\n'))))
                t.m_pluginDirs).1 ∧
          (L.loadFromFile fs t fileName).2.1.m_pluginDirs = t.m_pluginDirs ∧
          (L.loadFromFile fs t fileName).2.2
            = (E.parse (E.tokenize (String.mk (text.data.filter (fun ch => ch != '\n'))))
                t.m_pluginDirs).2) ∧
        (String.mk (text.data.filter (fun ch => ch != '\n')) = "" →
          (L.loadFromFile fs t fileName).2 = (t, []))) := by
  have hread : ∀ text : String, readLoop { buf := text.data } ""
      = String.mk (text.data.filter (fun ch => ch != '\n')) := by
    intro text
    rw [readLoop_eq]
    apply String.ext
    simp
  have hnonempty : ∀ src : String, src ≠ "" → isEmpty src = false := by
    intro src hne
    cases hs : isEmpty src with
    | false => rfl
    | true => exact absurd ((isEmpty_eq_true_iff src).mp hs) hne
  refine (fun gen => And.intro gen ?_) ?_
  · intro d1 d2 text hdirs htheme h1 h2
    have hfirst : FirstExisting L fs fileName 1 d2 := by
      refine ⟨by simp [hdirs], ?_, ?_⟩
      · simp [TemplateLoader.candidate, htheme, pathExists, h2]
      · intro j d' hj hd'
        have hj0 : j = 0 := by omega
        subst hj0
        have : d' = d1 := by simpa [hdirs] using hd'.symm
        subst this
        simp [TemplateLoader.candidate, htheme, pathExists, h1]
    have hg := gen 1 d2 hfirst
    rw [htheme] at hg
    exact ⟨hg.1, hg.2 text h2⟩
  · intro i d h
    refine ⟨TemplateLoader.searchLoop_first L fs fileName i d h, fun text hr => ?_⟩
    rw [TemplateLoader.loadFromFile_first_readable L fs t fileName i d text h hr, hread]
    refine ⟨rfl, fun hne => ?_, fun he => by rw [he]; rfl⟩
    simp only [Template.setContent, hnonempty _ hne, Template.compileString]
    exact ⟨rfl, rfl, rfl⟩

/-- Witness of C2: directories `d1`, `d2`, theme `t`, the file `x` only
under `d2/t/` with the text `"a\nb"`; the one-node template ends with the
nodes `a`, `b`. -/
theorem C2_first_existing_directory_selected_witness :
    FirstExisting sampleLoader onlyInSecond "x" 1 "d2" ∧
      sampleLoader.m_templateDirs = ["d1", "d2"] ∧ sampleLoader.m_themeName = "t" ∧
      onlyInSecond ("d1" ++ "/" ++ "t" ++ "/" ++ "x") = .absent ∧
      onlyInSecond ("d2" ++ "/" ++ "t" ++ "/" ++ "x") = .readable "a\nb" ∧
      String.mk ("a\nb".data.filter (fun ch => ch != '\n')) ≠ "" ∧
      sampleLoader.searchLoop onlyInSecond "x" 0 { fileName := "" } = { fileName := "d2/t/x" } ∧
      (sampleLoader.loadFromFile onlyInSecond sampleTemplate "x").1 = true ∧
      (sampleLoader.loadFromFile onlyInSecond sampleTemplate "x").2.1.m_nodelist = ['a', 'b'] ∧
      (sampleLoader.loadFromFile onlyInSecond sampleTemplate "x").2.1.m_pluginDirs
        = ["plugins"] ∧
      sampleLoader.searchLoop onlyInSecond "x" 0 { fileName := "" }
        = { fileName := "d2" ++ "/" ++ "t" ++ "/" ++ "x" } ∧
      (sampleLoader.loadFromFile onlyInSecond sampleTemplate "x").2.1.m_nodelist = ['a', 'b'] ∧
      sampleLoader.loadFromFile onlyInSecond sampleTemplate "x"
        = (true, { m_nodelist := ['a', 'b'], m_pluginDirs := ["plugins"] }, []) := by
  have heval : sampleLoader.loadFromFile onlyInSecond sampleTemplate "x"
      = (true, { m_nodelist := ['a', 'b'], m_pluginDirs := ["plugins"] }, []) := by
    simp [TemplateLoader.loadFromFile, TemplateLoader.searchLoop, TemplateLoader.candidate,
      sampleLoader, onlyInSecond, sampleTemplate, QFile.fileExists, QFile.openReadOnly,
      QFile.device, pathExists, isEmpty, readLoop, QTextStream.atEnd, QTextStream.readLine,
      Template.setContent, Template.compileString, literalEngine]
  have hfirst : FirstExisting sampleLoader onlyInSecond "x" 1 "d2" := by
    refine ⟨rfl, rfl, ?_⟩
    intro j d' hj hd'
    have hj0 : j = 0 := by omega
    subst hj0
    have : d' = "d1" := by simpa [sampleLoader] using hd'.symm
    subst this
    rfl
  have hne : String.mk ("a\nb".data.filter (fun ch => ch != '\n')) ≠ "" := by decide
  have h := C2_first_existing_directory_selected literalEngine sampleLoader onlyInSecond
    sampleTemplate "x"
  have hgen := (h.1 1 "d2" hfirst).2 "a\nb" rfl
  have hpart := h.2 "d1" "d2" "a\nb" rfl rfl rfl rfl
  exact ⟨hfirst, rfl, rfl, rfl, rfl, hne, (h.1 1 "d2" hfirst).1, hgen.1, (hgen.2.1 hne).1,
    (hgen.2.1 hne).2.1, hpart.1, (hpart.2.2.1 hne).1, heval⟩

/-- Counterexample to C3: with directories `d1`, `d2` and theme `t`, the
file `x` unreadable under `d1/t/` and readable under `d2/t/`, a directory
with an existing, readable file is there, yet `loadFromFile` returns false
and leaves the template as it was. -/
theorem C3_counterexample_unreadable_first :
    (∃ d ∈ sampleLoader.m_templateDirs, ∃ text,
        pathExists unreadableFirst (d ++ "/" ++ sampleLoader.m_themeName ++ "/" ++ "x") = true ∧
        unreadableFirst (d ++ "/" ++ sampleLoader.m_themeName ++ "/" ++ "x") = .readable text) ∧
      sampleLoader.loadFromFile unreadableFirst sampleTemplate "x"
        = (false, sampleTemplate, []) := by
  refine ⟨⟨"d2", by simp [sampleLoader], "A", rfl, rfl⟩, ?_⟩
  have hfirst : FirstExisting sampleLoader unreadableFirst "x" 0 "d1" :=
    ⟨rfl, rfl, fun j d' hj _ => absurd hj (Nat.not_lt_zero j)⟩
  exact TemplateLoader.loadFromFile_first_unreadable sampleLoader unreadableFirst sampleTemplate
    "x" 0 "d1" hfirst rfl

/-- C3 as amended: the first directory in list order whose path
`dir/theme/fileName` exists decides: when the file there opens,
`loadFromFile` returns true and loads from it, the source being the text
at that path without its `'\n'` (when not empty, the node list afterwards
is the parse of its tokens with the plugin directories of the template,
which stay, and the signals of that parse are emitted; when empty, the
template is as before); when it does not open, `loadFromFile` returns
false with the template as it was, whatever the later directories hold. -/
theorem C3_first_existing_decides (E : Engine) (L : TemplateLoader) (fs : FileSystem)
    (t : Template E) (fileName : String) (i : Nat) (d : String)
    (h : FirstExisting L fs fileName i d) :
    (∀ text, fs (d ++ "/" ++ L.m_themeName ++ "/" ++ fileName) = .readable text →
      (L.loadFromFile fs t fileName).1 = true ∧
      (String.mk (text.data.filter (fun ch => ch != '\n')) ≠ "" →
        (L.loadFromFile fs t fileName).2.1.m_nodelist
          = (E.parse (E.tokenize (String.mk (text.data.filter (fun ch => ch != '\n'))))
              t.m_pluginDirs).1 ∧
        (L.loadFromFile fs t fileName).2.1.m_pluginDirs = t.m_pluginDirs ∧
        (L.loadFromFile fs t fileName).2.2
          = (E.parse (E.tokenize (String.mk (text.data.filter (fun ch => ch != '\n'))))
              t.m_pluginDirs).2) ∧
      (String.mk (text.data.filter (fun ch => ch != '\n')) = "" →
        (L.loadFromFile fs t fileName).2 = (t, []))) ∧
      (fs (d ++ "/" ++ L.m_themeName ++ "/" ++ fileName) = .unreadable →
        L.loadFromFile fs t fileName = (false, t, [])) := by
  have hread : ∀ text : String, readLoop { buf := text.data } ""
      = String.mk (text.data.filter (fun ch => ch != '\n')) := by
    intro text
    rw [readLoop_eq]
    apply String.ext
    simp
  have hnonempty : ∀ src : String, src ≠ "" → isEmpty src = false := by
    intro src hne
    cases hs : isEmpty src with
    | false => rfl
    | true => exact absurd ((isEmpty_eq_true_iff src).mp hs) hne
  refine ⟨fun text hr => ?_,
    fun hr => TemplateLoader.loadFromFile_first_unreadable L fs t fileName i d h hr⟩
  rw [TemplateLoader.loadFromFile_first_readable L fs t fileName i d text h hr, hread]
  refine ⟨rfl, fun hne => ?_, fun he => by rw [he]; rfl⟩
  simp only [Template.setContent, hnonempty _ hne, Template.compileString]
  exact ⟨rfl, rfl, rfl⟩

/-- Witness of the amended C3: the file `x` readable under `d1/t/` with
the text `"B"`, which becomes the one node of the template; and the file
`x` unreadable under `d1/t/` while readable under `d2/t/`. -/
theorem C3_first_existing_decides_witness :
    (FirstExisting sampleLoader fileInFirst "x" 0 "d1" ∧
      fileInFirst ("d1" ++ "/" ++ sampleLoader.m_themeName ++ "/" ++ "x") = .readable "B" ∧
      String.mk ("B".data.filter (fun ch => ch != '\n')) ≠ "" ∧
      (sampleLoader.loadFromFile fileInFirst sampleTemplate "x").1 = true ∧
      (sampleLoader.loadFromFile fileInFirst sampleTemplate "x").2.1.m_nodelist = ['B'] ∧
      (sampleLoader.loadFromFile fileInFirst sampleTemplate "x").2.1.m_pluginDirs
        = ["plugins"] ∧
      (sampleLoader.loadFromFile fileInFirst sampleTemplate "x").2.2 = [] ∧
      sampleLoader.loadFromFile fileInFirst sampleTemplate "x"
        = (true, { m_nodelist := ['B'], m_pluginDirs := ["plugins"] }, [])) ∧
    (FirstExisting sampleLoader unreadableFirst "x" 0 "d1" ∧
      unreadableFirst ("d1" ++ "/" ++ sampleLoader.m_themeName ++ "/" ++ "x") = .unreadable ∧
      sampleLoader.loadFromFile unreadableFirst sampleTemplate "x"
        = (false, sampleTemplate, [])) := by
  have hne : String.mk ("B".data.filter (fun ch => ch != '\n')) ≠ "" := by decide
  have heval : sampleLoader.loadFromFile fileInFirst sampleTemplate "x"
      = (true, { m_nodelist := ['B'], m_pluginDirs := ["plugins"] }, []) := by
    simp [TemplateLoader.loadFromFile, TemplateLoader.searchLoop, TemplateLoader.candidate,
      sampleLoader, fileInFirst, sampleTemplate, QFile.fileExists, QFile.openReadOnly,
      QFile.device, pathExists, isEmpty, readLoop, QTextStream.atEnd, QTextStream.readLine,
      Template.setContent, Template.compileString, literalEngine]
  have hr := (C3_first_existing_decides literalEngine sampleLoader fileInFirst sampleTemplate
    "x" 0 "d1" ⟨rfl, rfl, fun j _ hj _ => absurd hj (Nat.not_lt_zero j)⟩).1 "B" rfl
  exact ⟨⟨⟨rfl, rfl, fun j _ hj _ => absurd hj (Nat.not_lt_zero j)⟩, rfl, hne, hr.1,
      (hr.2.1 hne).1, (hr.2.1 hne).2.1, (hr.2.1 hne).2.2, heval⟩,
    ⟨⟨rfl, rfl, fun j _ hj _ => absurd hj (Nat.not_lt_zero j)⟩, rfl,
      (C3_first_existing_decides literalEngine sampleLoader unreadableFirst sampleTemplate "x" 0
        "d1" ⟨rfl, rfl, fun j _ hj _ => absurd hj (Nat.not_lt_zero j)⟩).2 rfl⟩⟩

/-- C4: when `name` is not injected and no template directory has a file
at `dir/theme/name` that opens (in particular when there is no
directory), `loadByName` returns false; and whenever `loadByName` or
`loadFromFile` returns false, the template afterwards is the template
before and no error signal was emitted. -/
theorem C4_not_found_returns_false (E : Engine) (L : TemplateLoader) (fs : FileSystem)
    (t : Template E) (name : String) :
    (L.m_namedTemplates name = none →
      (∀ d ∈ L.m_templateDirs, ∀ text,
        fs (d ++ "/" ++ L.m_themeName ++ "/" ++ name) ≠ .readable text) →
      (L.loadByName fs t name).1 = false) ∧
      (L.m_namedTemplates name = none → L.m_templateDirs = [] →
        (L.loadByName fs t name).1 = false) ∧
      ((L.loadByName fs t name).1 = false →
        (L.loadByName fs t name).2.1 = t ∧
        (L.loadByName fs t name).2.1.m_nodelist = t.m_nodelist ∧
        (L.loadByName fs t name).2.1.m_pluginDirs = t.m_pluginDirs ∧
        (L.loadByName fs t name).2.2 = []) ∧
      ((L.loadFromFile fs t name).1 = false →
        (L.loadFromFile fs t name).2.1 = t ∧
        (L.loadFromFile fs t name).2.1.m_nodelist = t.m_nodelist ∧
        (L.loadFromFile fs t name).2.1.m_pluginDirs = t.m_pluginDirs ∧
        (L.loadFromFile fs t name).2.2 = []) := by
  have hfile : (L.loadFromFile fs t name).1 = false →
      (L.loadFromFile fs t name).2.1 = t ∧
      (L.loadFromFile fs t name).2.1.m_nodelist = t.m_nodelist ∧
      (L.loadFromFile fs t name).2.1.m_pluginDirs = t.m_pluginDirs ∧
      (L.loadFromFile fs t name).2.2 = [] := by
    intro h
    rw [TemplateLoader.loadFromFile_false L fs t name h]
    exact ⟨rfl, rfl, rfl, rfl⟩
  have hnone : L.m_namedTemplates name = none →
      (∀ d ∈ L.m_templateDirs, ∀ text,
        fs (d ++ "/" ++ L.m_themeName ++ "/" ++ name) ≠ .readable text) →
      (L.loadByName fs t name).1 = false := by
    intro hn hdirs
    simp only [TemplateLoader.loadByName, hn, Option.isSome_none, Bool.false_eq_true, if_false]
    by_contra hcon
    have htrue : (L.loadFromFile fs t name).1 = true := by simpa using hcon
    obtain ⟨i, d, text, hfirst, hr⟩ := TemplateLoader.loadFromFile_true L fs t name htrue
    exact hdirs d (List.getElem?_mem hfirst.1) text hr
  refine ⟨hnone, ?_, ?_, hfile⟩
  · intro hn hdirs
    apply hnone hn
    intro d hd
    simp [hdirs] at hd
  · intro h
    by_cases hn : (L.m_namedTemplates name).isSome = true
    · simp [TemplateLoader.loadByName, hn] at h
    · have heq : L.loadByName fs t name = L.loadFromFile fs t name := by
        simp [TemplateLoader.loadByName, hn]
      rw [heq] at h ⊢
      exact hfile h

/-- Witness of C4: `y` is not injected and no directory holds a file
`y`. -/
theorem C4_not_found_returns_false_witness :
    sampleLoader.m_namedTemplates "y" = none ∧
      (∀ d ∈ sampleLoader.m_templateDirs, ∀ text,
        fileInFirst (d ++ "/" ++ sampleLoader.m_themeName ++ "/" ++ "y") ≠ .readable text) ∧
      (sampleLoader.loadByName fileInFirst sampleTemplate "y").1 = false ∧
      (sampleLoader.loadByName fileInFirst sampleTemplate "y").2.1 = sampleTemplate ∧
      (sampleLoader.loadFromFile fileInFirst sampleTemplate "y").2.1 = sampleTemplate := by
  have hdirs : ∀ d ∈ sampleLoader.m_templateDirs, ∀ text,
      fileInFirst (d ++ "/" ++ sampleLoader.m_themeName ++ "/" ++ "y") ≠ .readable text := by
    intro d hd text
    simp only [sampleLoader, List.mem_cons, List.mem_singleton, List.not_mem_nil, or_false] at hd
    rcases hd with rfl | rfl
    · simp [fileInFirst, sampleLoader]
    · simp [fileInFirst, sampleLoader]
  have h := C4_not_found_returns_false literalEngine sampleLoader fileInFirst sampleTemplate "y"
  have hfalse := h.1 rfl hdirs
  have hfile : (sampleLoader.loadFromFile fileInFirst sampleTemplate "y").1 = false := by
    simpa [TemplateLoader.loadByName, sampleLoader] using hfalse
  exact ⟨rfl, hdirs, hfalse, (h.2.2.1 hfalse).1, (h.2.2.2 hfile).1⟩

/-- C6: `setContent` with an empty source leaves the template, node list
and plugin directories, as it was and emits nothing; with a non-empty
source the node list becomes the node list of `compileString`, which
parses the tokens of the source with the plugin directories of the
template, and the plugin directories stay. -/
theorem C6_setContent (E : Engine) (t : Template E) (source : String) :
    (source = "" → t.setContent source = (t, []) ∧
      (t.setContent source).1.m_nodelist = t.m_nodelist ∧
      (t.setContent source).1.m_pluginDirs = t.m_pluginDirs) ∧
      (source ≠ "" →
        (t.setContent source).1.m_nodelist = (t.compileString source).1 ∧
        t.compileString source = E.parse (E.tokenize source) t.m_pluginDirs ∧
        (t.setContent source).1.m_pluginDirs = t.m_pluginDirs) := by
  constructor
  · rintro rfl
    exact ⟨rfl, rfl, rfl⟩
  · intro hne
    have hemp : isEmpty source = false := by
      cases hs : isEmpty source with
      | false => rfl
      | true => exact absurd ((isEmpty_eq_true_iff source).mp hs) hne
    simp [Template.setContent, hemp, Template.compileString]

/-- Witness of C6: the empty source and the source `ab` on a template
that holds one node. -/
theorem C6_setContent_witness :
    (sampleTemplate.setContent "" = (sampleTemplate, []) ∧
      (sampleTemplate.setContent "").1.m_nodelist = sampleTemplate.m_nodelist ∧
      (sampleTemplate.setContent "").1.m_pluginDirs = sampleTemplate.m_pluginDirs) ∧
      ((sampleTemplate.setContent "ab").1.m_nodelist = (sampleTemplate.compileString "ab").1 ∧
        sampleTemplate.compileString "ab"
          = literalEngine.parse (literalEngine.tokenize "ab") sampleTemplate.m_pluginDirs ∧
        (sampleTemplate.setContent "ab").1.m_pluginDirs = sampleTemplate.m_pluginDirs) :=
  ⟨(C6_setContent literalEngine sampleTemplate "").1 rfl,
    (C6_setContent literalEngine sampleTemplate "ab").2 (by decide)⟩

/-- C7: when the node list renders to a null string, `render` emits one
error signal, of kind `TagSyntaxError`, and returns the null string;
otherwise it emits none and returns what the node list rendered to. -/
theorem C7_render_null_is_one_error (E : Engine) (t : Template E) (c : E.Context) :
    ((E.nodeListRender t.m_nodelist c).1 = none →
      (t.render c).2.1 = [(E.TagSyntaxError, "someError")] ∧
      (t.render c).2.1.length = 1 ∧
      (∀ e ∈ (t.render c).2.1, e.1 = E.TagSyntaxError) ∧
      (t.render c).1 = none) ∧
      (∀ s, (E.nodeListRender t.m_nodelist c).1 = some s →
        (t.render c).2.1 = [] ∧
        (t.render c).1 = (E.nodeListRender t.m_nodelist c).1 ∧
        (t.render c).1 = some s) := by
  constructor
  · intro h
    simp [Template.render, h]
  · intro s h
    simp [Template.render, h]

/-- Witness of C7: the one-node template rendered with a failing and with
a working context. -/
theorem C7_render_null_is_one_error_witness :
    ((literalEngine.nodeListRender sampleTemplate.m_nodelist false).1 = none ∧
      (sampleTemplate.render false).2.1 = [(literalEngine.TagSyntaxError, "someError")] ∧
      (sampleTemplate.render false).2.1.length = 1 ∧
      (∀ e ∈ (sampleTemplate.render false).2.1, e.1 = literalEngine.TagSyntaxError) ∧
      (sampleTemplate.render false).1 = none) ∧
      ((literalEngine.nodeListRender sampleTemplate.m_nodelist true).1 = some "z" ∧
        (sampleTemplate.render true).2.1 = [] ∧
        (sampleTemplate.render true).1
          = (literalEngine.nodeListRender sampleTemplate.m_nodelist true).1 ∧
        (sampleTemplate.render true).1 = some "z") :=
  ⟨⟨rfl, (C7_render_null_is_one_error literalEngine sampleTemplate false).1 rfl⟩,
    ⟨rfl, (C7_render_null_is_one_error literalEngine sampleTemplate true).2 "z" rfl⟩⟩

/-- C8: `getTemplate` creates a template whose plugin directories are
those of the loader at the call and whose node list is empty; configuring
calls made on the loader afterwards (`setPluginDirs`, `setTemplateDirs`,
`setTheme`, `injectTemplate`) leave the object at the returned address as
it was, while `setPluginDirs` does change the directories of the loader. -/
theorem C8_getTemplate_binds_current_pluginDirs (E : Engine) (H : Heap E)
    (cs : List LoaderCall) (dirs : List String) (themeName : String) :
    (H.loader.getTemplate : Template E)
        = { m_nodelist := [], m_pluginDirs := H.loader.m_pluginDirs } ∧
      H.getTemplate.2.objects[H.getTemplate.1]?
        = some { m_nodelist := [], m_pluginDirs := H.loader.m_pluginDirs } ∧
      (H.getTemplate.2.call (.setPluginDirs dirs)).loader.m_pluginDirs = dirs ∧
      (H.getTemplate.2.call (.setPluginDirs dirs)).objects[H.getTemplate.1]?
        = some { m_nodelist := [], m_pluginDirs := H.loader.m_pluginDirs } ∧
      (H.getTemplate.2.call (.setTemplateDirs dirs)).objects[H.getTemplate.1]?
        = some { m_nodelist := [], m_pluginDirs := H.loader.m_pluginDirs } ∧
      (H.getTemplate.2.call (.setTheme themeName)).objects[H.getTemplate.1]?
        = some { m_nodelist := [], m_pluginDirs := H.loader.m_pluginDirs } ∧
      (H.getTemplate.2.calls cs).objects[H.getTemplate.1]?
        = some { m_nodelist := [], m_pluginDirs := H.loader.m_pluginDirs } := by
  have hobj : ∀ (cs : List LoaderCall) (K : Heap E), (K.calls cs).objects = K.objects := by
    intro cs
    induction cs with
    | nil => intro K; rfl
    | cons c cs ih =>
      intro K
      show ((K.call c).calls cs).objects = K.objects
      rw [ih]
      rfl
  have hget : H.getTemplate.2.objects[H.getTemplate.1]?
      = some { m_nodelist := [], m_pluginDirs := H.loader.m_pluginDirs } := by
    simp [Heap.getTemplate, TemplateLoader.getTemplate, Template.Template]
  refine ⟨rfl, hget, rfl, hget, hget, hget, ?_⟩
  rw [hobj]
  exact hget

/-- C9: a template as constructed, or on which `setContent("")` was called
any number of times since, renders to an empty string whenever the empty
node list does; when the empty node list renders to the non-null empty
string, so does the template, with no error signal. -/
theorem C9_unset_template_renders_empty (E : Engine) (pluginDirs : List String)
    (c : E.Context) (n : Nat)
    (hempty : isEmptyOrNull (E.nodeListRender [] c).1 = true) :
    isEmptyOrNull (((fun u : Template E => (u.setContent "").1)^[n]
        (Template.Template pluginDirs)).render c).1 = true ∧
      ((E.nodeListRender [] c).1 = some "" →
        (((fun u : Template E => (u.setContent "").1)^[n]
          (Template.Template pluginDirs)).render c).1 = some "" ∧
        (((fun u : Template E => (u.setContent "").1)^[n]
          (Template.Template pluginDirs)).render c).2.1 = []) := by
  have hiter : (fun u : Template E => (u.setContent "").1)^[n] (Template.Template pluginDirs)
      = Template.Template pluginDirs := by
    apply Function.iterate_fixed
    rfl
  rw [hiter]
  constructor
  · cases hr : (E.nodeListRender [] c).1 with
    | none => simp [Template.render, Template.Template, hr, isEmptyOrNull]
    | some s =>
      rw [hr] at hempty
      simpa [Template.render, Template.Template, hr] using hempty
  · intro hr
    simp [Template.render, Template.Template, hr]

/-- Witness of C9: a fresh template of the literal engine after two calls
of `setContent("")`. -/
theorem C9_unset_template_renders_empty_witness :
    isEmptyOrNull (literalEngine.nodeListRender [] true).1 = true ∧
      (literalEngine.nodeListRender [] true).1 = some "" ∧
      isEmptyOrNull (((fun u : Template literalEngine => (u.setContent "").1)^[2]
        (Template.Template ["plugins"])).render true).1 = true ∧
      (((fun u : Template literalEngine => (u.setContent "").1)^[2]
        (Template.Template ["plugins"])).render true).1 = some "" ∧
      (((fun u : Template literalEngine => (u.setContent "").1)^[2]
        (Template.Template ["plugins"])).render true).2.1 = [] :=
  ⟨rfl, rfl, (C9_unset_template_renders_empty literalEngine ["plugins"] true 2 rfl).1,
    ((C9_unset_template_renders_empty literalEngine ["plugins"] true 2 rfl).2 rfl).1,
    ((C9_unset_template_renders_empty literalEngine ["plugins"] true 2 rfl).2 rfl).2⟩

/-- C10: once `loadFromFile` has found and opened a file, the source it
hands to `setContent` is the text of the file without its `'\n'`
characters: for a file made of lines, each ended by a terminator except
perhaps the last, it is the concatenation of the lines in order.  A file
`"a\nb"` is handed over as `"ab"`, and a file made of terminators only as
the empty source. -/
theorem C10_lines_concatenated_without_terminators (E : Engine) (L : TemplateLoader)
    (fs : FileSystem) (t : Template E) (fileName : String) :
    (∀ i d text, FirstExisting L fs fileName i d →
      fs (d ++ "/" ++ L.m_themeName ++ "/" ++ fileName) = .readable text →
      L.loadFromFile fs t fileName
          = (true, t.setContent (String.mk (text.data.filter (fun ch => ch != '\n')))) ∧
        ∀ (lines : List (List Char)) (last : List Char),
          (∀ l ∈ lines, '\n' ∉ l) → '\n' ∉ last →
          text.data = (lines.map (fun l => l ++ ['\n'])).flatten ++ last →
          L.loadFromFile fs t fileName = (true, t.setContent (String.mk (lines.flatten ++ last)))) ∧
      (∀ text : String, readLoop { buf := text.data } ""
        = String.mk (text.data.filter (fun ch => ch != '\n'))) ∧
      readLoop { buf := "a\nb".data } "" = "ab" ∧
      (∀ k, readLoop { buf := List.replicate k '\n' } "" = "") := by
  have hread : ∀ buf : List Char, readLoop { buf := buf } ""
      = String.mk (buf.filter (fun ch => ch != '\n')) := by
    intro buf
    rw [readLoop_eq]
    apply String.ext
    simp
  refine ⟨?_, fun text => hread text.data, ?_, ?_⟩
  · intro i d text hfirst hr
    have hload := TemplateLoader.loadFromFile_first_readable L fs t fileName i d text hfirst hr
    rw [hread] at hload
    refine ⟨hload, ?_⟩
    intro lines last hlines hlast htext
    have hl : last.filter (fun ch => ch != '\n') = last := by
      rw [List.filter_eq_self]
      intro a ha
      have : a ≠ '\n' := fun heq => hlast (heq ▸ ha)
      simpa using this
    rw [hload, htext, List.filter_append, filter_terminated_lines lines hlines, hl]
  · rw [hread]
    rfl
  · intro k
    rw [hread]
    apply String.ext
    simp

/-- Witness of C10: the file `x`, found under `d2/t/`, holds the lines
`a` and `b`. -/
theorem C10_lines_concatenated_without_terminators_witness :
    FirstExisting sampleLoader onlyInSecond "x" 1 "d2" ∧
      onlyInSecond ("d2" ++ "/" ++ sampleLoader.m_themeName ++ "/" ++ "x") = .readable "a\nb" ∧
      (∀ l ∈ [['a']], '\n' ∉ l) ∧ '\n' ∉ ['b'] ∧
      "a\nb".data = ([['a']].map (fun l => l ++ ['\n'])).flatten ++ ['b'] ∧
      sampleLoader.loadFromFile onlyInSecond sampleTemplate "x"
        = (true, sampleTemplate.setContent (String.mk ("a\nb".data.filter (fun ch => ch != '\n')))) ∧
      sampleLoader.loadFromFile onlyInSecond sampleTemplate "x"
        = (true, sampleTemplate.setContent (String.mk ([['a']].flatten ++ ['b']))) := by
  have hfirst : FirstExisting sampleLoader onlyInSecond "x" 1 "d2" := by
    refine ⟨rfl, rfl, ?_⟩
    intro j d' hj hd'
    have hj0 : j = 0 := by omega
    subst hj0
    have : d' = "d1" := by simpa [sampleLoader] using hd'.symm
    subst this
    rfl
  have hlines : ∀ l ∈ [['a']], '\n' ∉ l := by
    intro l hl
    simp only [List.mem_singleton] at hl
    subst hl
    decide
  have h := (C10_lines_concatenated_without_terminators literalEngine sampleLoader onlyInSecond
    sampleTemplate "x").1 1 "d2" "a\nb" hfirst rfl
  exact ⟨hfirst, rfl, hlines, by decide, rfl, h.1, h.2 [['a']] ['b'] hlines (by decide) rfl⟩

end Grantlee
